import Mathlib

/-!
Verification of the `rust-higher-kinded-types` graph-traversal interface crate.

The crate consists of three files of trait declarations and essentially no
method bodies (`src/lib.rs`, `src/nav_types.rs`, `src/mut_types.rs`): a base
type-family trait `GraphTypes`, a read-only Navigator family (`nav_types`)
and an exclusive-mutation Editor family (`mut_types`).

The development has three parts:
1. a syntactic embedding of the trait declarations themselves (the program
   *is* its declarations, so method signatures, supertrait bounds, associated
   types and their constraints are embedded as data, faithfully transcribed
   from the Rust source);
2. an access-discipline state machine, modelled from the spec, describing
   the borrow semantics the two handle families rely on (shared borrows for
   Navigator handles, a single mutable borrow for Editor handles, consuming
   moves, and nested read-only views derived from an Editor handle);
3. a concrete adjacency-list model of the Navigator contracts, modelled from
   the spec (no concrete graph implementation exists in the crate), used to
   settle the behavioural laws the spec states for `is_empty`, `iter` and
   `source`.
-/

/-- Lifetime tag occurring in a reference type of a method signature:
`graph` is the bound lifetime of the underlying graph borrow (written `'a`
in the source), `handle` is the elided lifetime of the method's own
`&self`/`&mut self` borrow. -/
inductive Life where
  | graph
  | handle
deriving DecidableEq, Repr

/-- Receiver mode of a trait method: `&self`, `&mut self`, or `self` by value. -/
inductive Recv where
  | byRef
  | byRefMut
  | byValue
deriving DecidableEq, Repr

/-- Types appearing in the trait method signatures of the crate.  The
associated-type projections (`NavVertex`, `MutOutEdgeCollection`, ...) are
named directly; `selfIter` stands for the collection trait's own `Self::Iter`. -/
inductive Ty where
  | vertexData
  | edgeData
  | navVertex
  | navEdge
  | navInEdgeCollection
  | navOutEdgeCollection
  | mutVertex
  | mutEdge
  | mutInEdgeCollection
  | mutOutEdgeCollection
  | selfIter
  | usize
  | bool
  | unit
  | ref (l : Life) (t : Ty)
  | refMut (l : Life) (t : Ty)
deriving DecidableEq, Repr

/-- A trait method declaration: name, receiver mode, return type, and
whether the trait supplies a default body. -/
structure Method where
  name : String
  recv : Recv
  ret : Ty
  hasDefaultBody : Bool
deriving DecidableEq, Repr

/-- A constraint inside a trait bound of an associated type:
`eqSelf a` records an `a = Self` equality constraint on the bound
(e.g. `Types = Self` in `type NavVertex: Vertex<'a, Types = Self>`);
`itemEq t` records an `Item = t` constraint on an iterator bound. -/
inductive Constraint where
  | eqSelf (assoc : String)
  | itemEq (t : Ty)
deriving DecidableEq, Repr

/-- An associated-type declaration inside a trait: its name, the traits it
is bound by, and the equality constraints attached to those bounds. -/
structure AssocType where
  name : String
  bounds : List String
  constraints : List Constraint
deriving DecidableEq, Repr

/-- A Rust trait declaration: name, supertraits, associated types, methods. -/
structure TraitDecl where
  name : String
  supertraits : List String
  assocTypes : List AssocType
  methods : List Method
deriving DecidableEq, Repr

/-- Look a method up by name in a trait declaration. -/
def TraitDecl.findMethod (t : TraitDecl) (n : String) : Option Method :=
  t.methods.find? (fun m => m.name == n)

/-- Look an associated type up by name in a trait declaration. -/
def TraitDecl.findAssoc (t : TraitDecl) (n : String) : Option AssocType :=
  t.assocTypes.find? (fun a => a.name == n)

/-- `pub trait GraphTypes: Sized` with associated types `VertexData` and
`EdgeData` (src/lib.rs, lines 28-34). -/
def graphTypesDecl : TraitDecl :=
  { name := "GraphTypes"
    supertraits := ["Sized"]
    assocTypes := [
      { name := "VertexData", bounds := [], constraints := [] },
      { name := "EdgeData", bounds := [], constraints := [] }]
    methods := [] }

/-- `pub trait BoundedIterator<'a>: Iterator { }` (src/lib.rs, line 38). -/
def boundedIteratorDecl : TraitDecl :=
  { name := "BoundedIterator"
    supertraits := ["Iterator"]
    assocTypes := []
    methods := [] }

/-- `pub trait NavTypes<'a>: GraphTypes` (src/nav_types.rs, lines 10-15):
each of the four Navigator handle types is bound by its handle trait with
the back-constraint `Types = Self`. -/
def navTypesDecl : TraitDecl :=
  { name := "NavTypes"
    supertraits := ["GraphTypes"]
    assocTypes := [
      { name := "NavVertex", bounds := ["nav_types::Vertex"],
        constraints := [Constraint.eqSelf "Types"] },
      { name := "NavEdge", bounds := ["nav_types::Edge"],
        constraints := [Constraint.eqSelf "Types"] },
      { name := "NavInEdgeCollection", bounds := ["nav_types::InEdgeCollection"],
        constraints := [Constraint.eqSelf "Types"] },
      { name := "NavOutEdgeCollection", bounds := ["nav_types::OutEdgeCollection"],
        constraints := [Constraint.eqSelf "Types"] }]
    methods := [] }

/-- `pub trait Vertex<'a>: Sized` of `nav_types` (src/nav_types.rs, lines
17-25).  `data` returns `&'a VertexData` — the reference carries the graph
borrow's lifetime `'a`, not the receiver borrow's. -/
def navVertexDecl : TraitDecl :=
  { name := "nav_types::Vertex"
    supertraits := ["Sized"]
    assocTypes := [
      { name := "Types", bounds := ["NavTypes"],
        constraints := [Constraint.eqSelf "NavVertex"] }]
    methods := [
      { name := "data", recv := Recv.byRef,
        ret := Ty.ref Life.graph Ty.vertexData, hasDefaultBody := false },
      { name := "out_edges", recv := Recv.byRef,
        ret := Ty.navOutEdgeCollection, hasDefaultBody := false },
      { name := "in_edges", recv := Recv.byRef,
        ret := Ty.navInEdgeCollection, hasDefaultBody := false }] }

/-- `pub trait Edge<'a>: Sized` of `nav_types` (src/nav_types.rs, lines 27-35). -/
def navEdgeDecl : TraitDecl :=
  { name := "nav_types::Edge"
    supertraits := ["Sized"]
    assocTypes := [
      { name := "Types", bounds := ["NavTypes"],
        constraints := [Constraint.eqSelf "NavEdge"] }]
    methods := [
      { name := "data", recv := Recv.byRef,
        ret := Ty.ref Life.graph Ty.edgeData, hasDefaultBody := false },
      { name := "source", recv := Recv.byRef,
        ret := Ty.navVertex, hasDefaultBody := false },
      { name := "target", recv := Recv.byRef,
        ret := Ty.navVertex, hasDefaultBody := false }] }

/-- `pub trait InEdgeCollection<'a>: Sized` of `nav_types` (src/nav_types.rs,
lines 37-48).  `Iter` is bound by `BoundedIterator<'a, Item = NavEdge>`;
`is_empty` has the default body `self.len() == 0`. -/
def navInEdgeCollectionDecl : TraitDecl :=
  { name := "nav_types::InEdgeCollection"
    supertraits := ["Sized"]
    assocTypes := [
      { name := "Types", bounds := ["NavTypes"],
        constraints := [Constraint.eqSelf "NavInEdgeCollection"] },
      { name := "Iter", bounds := ["BoundedIterator"],
        constraints := [Constraint.itemEq Ty.navEdge] }]
    methods := [
      { name := "len", recv := Recv.byRef,
        ret := Ty.usize, hasDefaultBody := false },
      { name := "is_empty", recv := Recv.byRef,
        ret := Ty.bool, hasDefaultBody := true },
      { name := "target", recv := Recv.byRef,
        ret := Ty.navVertex, hasDefaultBody := false },
      { name := "iter", recv := Recv.byRef,
        ret := Ty.selfIter, hasDefaultBody := false }] }

/-- `pub trait OutEdgeCollection<'a>: Sized` of `nav_types` (src/nav_types.rs,
lines 50-60). -/
def navOutEdgeCollectionDecl : TraitDecl :=
  { name := "nav_types::OutEdgeCollection"
    supertraits := ["Sized"]
    assocTypes := [
      { name := "Types", bounds := ["NavTypes"],
        constraints := [Constraint.eqSelf "NavOutEdgeCollection"] },
      { name := "Iter", bounds := ["BoundedIterator"],
        constraints := [Constraint.itemEq Ty.navEdge] }]
    methods := [
      { name := "len", recv := Recv.byRef,
        ret := Ty.usize, hasDefaultBody := false },
      { name := "is_empty", recv := Recv.byRef,
        ret := Ty.bool, hasDefaultBody := true },
      { name := "source", recv := Recv.byRef,
        ret := Ty.navVertex, hasDefaultBody := false },
      { name := "iter", recv := Recv.byRef,
        ret := Ty.selfIter, hasDefaultBody := false }] }

/-- `pub trait MutTypes<'a>: NavTypes<'a>` (src/mut_types.rs, lines 8-13). -/
def mutTypesDecl : TraitDecl :=
  { name := "MutTypes"
    supertraits := ["NavTypes"]
    assocTypes := [
      { name := "MutVertex", bounds := ["mut_types::Vertex"],
        constraints := [Constraint.eqSelf "Types"] },
      { name := "MutEdge", bounds := ["mut_types::Edge"],
        constraints := [Constraint.eqSelf "Types"] },
      { name := "MutInEdgeCollection", bounds := ["mut_types::InEdgeCollection"],
        constraints := [Constraint.eqSelf "Types"] },
      { name := "MutOutEdgeCollection", bounds := ["mut_types::OutEdgeCollection"],
        constraints := [Constraint.eqSelf "Types"] }]
    methods := [] }

/-- `pub trait Vertex<'a>: Sized` of `mut_types` (src/mut_types.rs, lines
15-92).  `data` and `data_mut` return references whose (elided) lifetime is
that of the receiver borrow; `to_out_edges` and `to_in_edges` take `self` by
value; `out_edges` is declared `fn out_edges(&self);`, i.e. it returns the
unit type. -/
def mutVertexDecl : TraitDecl :=
  { name := "mut_types::Vertex"
    supertraits := ["Sized"]
    assocTypes := [
      { name := "Types", bounds := ["MutTypes"],
        constraints := [Constraint.eqSelf "MutVertex"] }]
    methods := [
      { name := "data", recv := Recv.byRef,
        ret := Ty.ref Life.handle Ty.vertexData, hasDefaultBody := false },
      { name := "data_mut", recv := Recv.byRefMut,
        ret := Ty.refMut Life.handle Ty.vertexData, hasDefaultBody := false },
      { name := "to_out_edges", recv := Recv.byValue,
        ret := Ty.mutOutEdgeCollection, hasDefaultBody := false },
      { name := "to_in_edges", recv := Recv.byValue,
        ret := Ty.mutInEdgeCollection, hasDefaultBody := false },
      { name := "out_edges", recv := Recv.byRef,
        ret := Ty.unit, hasDefaultBody := false }] }

/-- `pub trait Edge<'a>: Sized` of `mut_types` (src/mut_types.rs, lines 94-96). -/
def mutEdgeDecl : TraitDecl :=
  { name := "mut_types::Edge"
    supertraits := ["Sized"]
    assocTypes := [
      { name := "Types", bounds := ["MutTypes"],
        constraints := [Constraint.eqSelf "MutEdge"] }]
    methods := [] }

/-- `pub trait InEdgeCollection<'a>: Sized` of `mut_types` (src/mut_types.rs,
lines 98-101): only the two associated types, no methods; `Iter` is bound by
`BoundedIterator<'a>` with no `Item` constraint. -/
def mutInEdgeCollectionDecl : TraitDecl :=
  { name := "mut_types::InEdgeCollection"
    supertraits := ["Sized"]
    assocTypes := [
      { name := "Types", bounds := ["MutTypes"],
        constraints := [Constraint.eqSelf "MutInEdgeCollection"] },
      { name := "Iter", bounds := ["BoundedIterator"], constraints := [] }]
    methods := [] }

/-- `pub trait OutEdgeCollection<'a>: Sized` of `mut_types` (src/mut_types.rs,
lines 103-106). -/
def mutOutEdgeCollectionDecl : TraitDecl :=
  { name := "mut_types::OutEdgeCollection"
    supertraits := ["Sized"]
    assocTypes := [
      { name := "Types", bounds := ["MutTypes"],
        constraints := [Constraint.eqSelf "MutOutEdgeCollection"] },
      { name := "Iter", bounds := ["BoundedIterator"], constraints := [] }]
    methods := [] }

/-- Modelled from the spec: a reference whose lifetime is the underlying
graph borrow `'a` stays valid after the handle that produced it is dropped
(as long as the graph is not mutated); a reference whose lifetime is the
handle's own receiver borrow does not outlive the handle's access window. -/
def outlivesHandle : Life → Bool
  | Life.graph => true
  | Life.handle => false

/-- Modelled from the spec: the kind of a live handle over one graph
resource.  `nav` is an independently obtained Navigator-family handle
(backed by a shared borrow), `editor` is an Editor-family handle (backed
by the single mutable borrow), `view` is a Navigator view derived from the
live Editor handle (the reborrow described in the `out_edges` doc comment
of `mut_types::Vertex`). -/
inductive HKind where
  | nav
  | editor
  | view
deriving DecidableEq, Repr

/-- Modelled from the spec: the set of live handles over one graph
resource, each tagged with a fresh id, together with the next fresh id.
The crate has no run-time representation of this state (the Rust borrow
checker enforces it statically); this state machine is its semantics. -/
structure AccessState where
  live : List (Nat × HKind)
  next : Nat
deriving DecidableEq, Repr

/-- Number of live handles of kind `k`. -/
def countKind (k : HKind) (s : AccessState) : Nat :=
  s.live.countP (fun h => h.2 == k)

/-- Number of live Editor-family handles. -/
def countEditor (s : AccessState) : Nat := countKind HKind.editor s

/-- Number of live independent Navigator handles. -/
def countNav (s : AccessState) : Nat := countKind HKind.nav s

/-- Number of live Navigator views derived from the Editor handle. -/
def countView (s : AccessState) : Nat := countKind HKind.view s

/-- Whether some Editor-family handle is live. -/
def hasEditor (s : AccessState) : Bool :=
  s.live.any (fun h => h.2 == HKind.editor)

/-- The state of a graph resource before any handle is obtained. -/
def initState : AccessState := { live := [], next := 0 }

/-- Modelled from the spec: obtain an independent Navigator handle.  The
`nav_types` module doc says these are backed by a read-only borrow, so this
is allowed exactly when no mutable borrow (Editor handle) is live. -/
def acquireNav (s : AccessState) : Option (Nat × AccessState) :=
  if hasEditor s then none
  else some (s.next, { live := (s.next, HKind.nav) :: s.live, next := s.next + 1 })

/-- Modelled from the spec: obtain an Editor handle.  The `mut_types`
module doc says these are backed by a mutable borrow of the graph, so this
is allowed only when no other handle at all is live. -/
def acquireEditor (s : AccessState) : Option (Nat × AccessState) :=
  if s.live.isEmpty then
    some (s.next, { live := [(s.next, HKind.editor)], next := s.next + 1 })
  else none

/-- Modelled from the spec: derive a temporary Navigator view from the live
Editor handle (the intended contract of `mut_types::Vertex::out_edges`). -/
def deriveView (s : AccessState) : Option (Nat × AccessState) :=
  if hasEditor s then
    some (s.next, { live := (s.next, HKind.view) :: s.live, next := s.next + 1 })
  else none

/-- Modelled from the spec: release a live handle, ending its access
window.  An Editor handle cannot be released while a Navigator view
derived from it is still live (the view's window is strictly nested inside
the Editor handle's window). -/
def releaseHandle (s : AccessState) (id : Nat) : Option AccessState :=
  match s.live.find? (fun h => h.1 == id) with
  | none => none
  | some h =>
    if h.2 == HKind.editor && countView s != 0 then none
    else some { live := s.live.filter (fun h => h.1 != id), next := s.next }

/-- Modelled from the spec: the consuming transition
`mut_types::Vertex::to_out_edges` — the Editor handle `id` is given up
entirely and its exclusive right passes to a fresh Editor-family
collection handle.  It requires the handle to be a live Editor handle that
is not frozen by a derived view. -/
def toOutEdges (s : AccessState) (id : Nat) : Option (Nat × AccessState) :=
  if s.live.contains (id, HKind.editor) && countView s == 0 then
    some (s.next,
      { live := (s.next, HKind.editor) :: s.live.filter (fun h => h.1 != id)
        next := s.next + 1 })
  else none

/-- Modelled from the spec: the consuming transition
`mut_types::Vertex::to_in_edges`, with the same custody-transfer semantics
as `toOutEdges`. -/
def toInEdges (s : AccessState) (id : Nat) : Option (Nat × AccessState) :=
  if s.live.contains (id, HKind.editor) && countView s == 0 then
    some (s.next,
      { live := (s.next, HKind.editor) :: s.live.filter (fun h => h.1 != id)
        next := s.next + 1 })
  else none

/-- One step of the access discipline. -/
inductive AccessStep : AccessState → AccessState → Prop where
  | acqNav {s i t} : acquireNav s = some (i, t) → AccessStep s t
  | acqEditor {s i t} : acquireEditor s = some (i, t) → AccessStep s t
  | derive {s i t} : deriveView s = some (i, t) → AccessStep s t
  | release {s id t} : releaseHandle s id = some t → AccessStep s t
  | toOut {s id i t} : toOutEdges s id = some (i, t) → AccessStep s t
  | toIn {s id i t} : toInEdges s id = some (i, t) → AccessStep s t

/-- States reachable from the initial (handle-free) state. -/
inductive Reachable : AccessState → Prop where
  | init : Reachable initState
  | step {s t} : Reachable s → AccessStep s t → Reachable t

/-- The aliasing invariant maintained by the access discipline, together
with the bookkeeping facts that live ids are below `next` and distinct. -/
def AccessInv (s : AccessState) : Prop :=
  countEditor s ≤ 1 ∧
  (countView s ≠ 0 → countEditor s = 1) ∧
  (countEditor s = 1 → countNav s = 0) ∧
  (∀ h ∈ s.live, h.1 < s.next) ∧
  (s.live.map Prod.fst).Nodup

/-- Modelled from the spec: the crate contains no concrete graph
implementation, so a minimal adjacency-list graph realises the Navigator
contracts of `nav_types`.  Vertices are identified by their index into
`vertices`; `edges` lists `(source id, target id, payload)` triples. -/
structure ModelGraph (V E : Type) where
  vertices : List V
  edges : List (Nat × Nat × E)
deriving DecidableEq, Repr

/-- Modelled from the spec: a Navigator Vertex handle — a fat pointer into
the graph naming one vertex. -/
structure MVertex (V E : Type) where
  g : ModelGraph V E
  id : Nat
deriving DecidableEq, Repr

/-- Modelled from the spec: a Navigator Edge handle — a fat pointer into
the graph naming one directed edge. -/
structure MEdge (V E : Type) where
  g : ModelGraph V E
  src : Nat
  tgt : Nat
  payload : E
deriving DecidableEq, Repr

/-- Modelled from the spec: a Navigator OutEdgeCollection handle —
the out-adjacency view of vertex `src`. -/
structure MOutEdges (V E : Type) where
  g : ModelGraph V E
  src : Nat
deriving DecidableEq, Repr

/-- Modelled from the spec: a Navigator InEdgeCollection handle —
the in-adjacency view of vertex `tgt`. -/
structure MInEdges (V E : Type) where
  g : ModelGraph V E
  tgt : Nat
deriving DecidableEq, Repr

/-- Realises `nav_types::Vertex::data`: the vertex payload, looked up in
the graph the handle points into. -/
def MVertex.data {V E : Type} (v : MVertex V E) : Option V :=
  v.g.vertices.get? v.id

/-- Realises `nav_types::Vertex::out_edges`: constructs the out-adjacency
view of the vertex, sharing the same graph borrow. -/
def MVertex.out_edges {V E : Type} (v : MVertex V E) : MOutEdges V E :=
  { g := v.g, src := v.id }

/-- Realises `nav_types::Vertex::in_edges`. -/
def MVertex.in_edges {V E : Type} (v : MVertex V E) : MInEdges V E :=
  { g := v.g, tgt := v.id }

/-- The edge triples of the out-adjacency set of `c.src`. -/
def MOutEdges.edgeList {V E : Type} (c : MOutEdges V E) : List (Nat × Nat × E) :=
  c.g.edges.filter (fun t => t.1 == c.src)

/-- Realises `nav_types::OutEdgeCollection::len`. -/
def MOutEdges.len {V E : Type} (c : MOutEdges V E) : Nat :=
  c.edgeList.length

/-- Realises `nav_types::OutEdgeCollection::is_empty` with the default
body of the trait, `self.len() == 0` (src/nav_types.rs, line 56). -/
def MOutEdges.is_empty {V E : Type} (c : MOutEdges V E) : Bool :=
  c.len == 0

/-- Realises `nav_types::OutEdgeCollection::iter`: the sequence of Edge
handles the collection's iterator yields, each a fresh Navigator handle
into the same graph. -/
def MOutEdges.iterSeq {V E : Type} (c : MOutEdges V E) : List (MEdge V E) :=
  c.edgeList.map (fun t => { g := c.g, src := t.1, tgt := t.2.1, payload := t.2.2 })

/-- Realises `nav_types::OutEdgeCollection::source`: the owning vertex. -/
def MOutEdges.source {V E : Type} (c : MOutEdges V E) : MVertex V E :=
  { g := c.g, id := c.src }

/-- The edge triples of the in-adjacency set of `c.tgt`. -/
def MInEdges.edgeList {V E : Type} (c : MInEdges V E) : List (Nat × Nat × E) :=
  c.g.edges.filter (fun t => t.2.1 == c.tgt)

/-- Realises `nav_types::InEdgeCollection::len`. -/
def MInEdges.len {V E : Type} (c : MInEdges V E) : Nat :=
  c.edgeList.length

/-- Realises `nav_types::InEdgeCollection::is_empty` with the default body
of the trait, `self.len() == 0` (src/nav_types.rs, line 43). -/
def MInEdges.is_empty {V E : Type} (c : MInEdges V E) : Bool :=
  c.len == 0

/-- Realises `nav_types::InEdgeCollection::iter`. -/
def MInEdges.iterSeq {V E : Type} (c : MInEdges V E) : List (MEdge V E) :=
  c.edgeList.map (fun t => { g := c.g, src := t.1, tgt := t.2.1, payload := t.2.2 })

/-- Realises `nav_types::InEdgeCollection::target`: the owning vertex. -/
def MInEdges.target {V E : Type} (c : MInEdges V E) : MVertex V E :=
  { g := c.g, id := c.tgt }

/-- Realises `nav_types::Edge::source`: a fresh Navigator Vertex handle
for the edge's source. -/
def MEdge.source {V E : Type} (e : MEdge V E) : MVertex V E :=
  { g := e.g, id := e.src }

/-- Realises `nav_types::Edge::target`. -/
def MEdge.target {V E : Type} (e : MEdge V E) : MVertex V E :=
  { g := e.g, id := e.tgt }

/-- Realises `nav_types::Edge::data`. -/
def MEdge.data {V E : Type} (e : MEdge V E) : E :=
  e.payload

/-- A state holding exactly `n` independent Navigator handles and nothing
else. -/
def navOnly (n : Nat) : AccessState :=
  { live := (List.range n).reverse.map (fun i => (i, HKind.nav)), next := n }

/-- A handle id that is dead and below the id counter: it is not live and,
because fresh ids only count upward, can never become live again. -/
def NeverLive (id : Nat) (s : AccessState) : Prop :=
  id ∉ s.live.map Prod.fst ∧ id < s.next

/-- Projects the `Item =` constraint (if any) out of a collection trait's
`Iter` associated type. -/
def iterItemConstraint (t : TraitDecl) : Option Ty :=
  match t.findAssoc "Iter" with
  | none => none
  | some a =>
    (a.constraints.filterMap (fun c =>
      match c with
      | Constraint.itemEq ty => some ty
      | Constraint.eqSelf _ => none)).head?

/-- The three-vertex graph of the spec's test scenario: vertices A, B, C
(ids 0, 1, 2) with edges A -> B and A -> C. -/
def witnessGraph : ModelGraph Nat Nat :=
  { vertices := [10, 20, 30], edges := [(0, 1, 5), (0, 2, 7)] }

/-- Two distinct members both satisfying `p` force a count of at least 2. -/
theorem two_le_countP {α : Type} (p : α → Bool) {l : List α} {x y : α}
    (hx : x ∈ l) (hy : y ∈ l) (hxy : x ≠ y) (px : p x = true) (py : p y = true) :
    2 ≤ l.countP p := by
  obtain ⟨l₁, l₂, rfl⟩ := List.append_of_mem hx
  rcases List.mem_append.mp hy with h | h
  · obtain ⟨m₁, m₂, rfl⟩ := List.append_of_mem h
    simp [List.countP_append, List.countP_cons, px, py]
    omega
  · rcases List.mem_cons.mp h with rfl | h
    · exact absurd rfl hxy
    · obtain ⟨m₁, m₂, rfl⟩ := List.append_of_mem h
      simp [List.countP_append, List.countP_cons, px, py]
      omega

/-- Prepending a handle of kind `k'` adjusts the count of kind `k`. -/
theorem countKind_cons (k k' : HKind) (i n m : Nat) (l : List (Nat × HKind)) :
    countKind k { live := (i, k') :: l, next := n } =
      countKind k { live := l, next := m } + (if k' = k then 1 else 0) := by
  by_cases h : k' = k <;> simp [countKind, List.countP_cons, h]

/-- Dropping handles by a filter never increases a kind's count. -/
theorem countKind_filter_le (k : HKind) (p : Nat × HKind → Bool) (n m : Nat)
    (l : List (Nat × HKind)) :
    countKind k { live := l.filter p, next := n } ≤ countKind k { live := l, next := m } := by
  exact (List.filter_sublist l).countP_le _

/-- A kind's count survives an id-filter that touches no handle of that kind. -/
theorem countKind_filter_eq (k : HKind) (id n m : Nat) (l : List (Nat × HKind))
    (h : ∀ x ∈ l, x.2 = k → x.1 ≠ id) :
    countKind k { live := l.filter (fun x => x.1 != id), next := n } =
      countKind k { live := l, next := m } := by
  simp only [countKind, List.countP_filter]
  refine List.countP_congr (fun x hx => ?_)
  by_cases hk : x.2 = k
  · have := h x hx hk
    simp [hk, this]
  · simp [hk]

/-- No editor is live exactly when the editor count is zero. -/
theorem hasEditor_false_iff (s : AccessState) :
    hasEditor s = false ↔ countEditor s = 0 := by
  simp [hasEditor, countEditor, countKind, List.countP_eq_zero, List.any_eq_false]

/-- An editor is live exactly when the editor count is positive. -/
theorem hasEditor_true_iff (s : AccessState) :
    hasEditor s = true ↔ 0 < countEditor s := by
  simp [hasEditor, countEditor, countKind, List.countP_pos_iff, List.any_eq_true]

/-- Acquiring a Navigator handle preserves the aliasing invariant. -/
theorem accessInv_acquireNav {s : AccessState} {i : Nat} {t : AccessState}
    (hInv : AccessInv s) (h : acquireNav s = some (i, t)) : AccessInv t := by
  obtain ⟨h1, h2, h3, h4, h5⟩ := hInv
  unfold acquireNav at h
  split at h
  · exact Option.noConfusion h
  · rename_i he
    simp only [Bool.not_eq_true] at he
    have hE0 : countEditor s = 0 := (hasEditor_false_iff s).mp he
    injection h with h
    injection h with hi ht
    subst hi
    subst ht
    have cE : countEditor { live := (s.next, HKind.nav) :: s.live, next := s.next + 1 } =
        countEditor s := by
      simp [countEditor, countKind, List.countP_cons]
    have cV : countView { live := (s.next, HKind.nav) :: s.live, next := s.next + 1 } =
        countView s := by
      simp [countView, countKind, List.countP_cons]
    refine ⟨?_, ?_, ?_, ?_, ?_⟩
    · omega
    · intro hv
      rw [cV] at hv
      have := h2 hv
      omega
    · intro hv
      rw [cE, hE0] at hv
      exact absurd hv (by omega)
    · intro x hx
      rcases List.mem_cons.mp hx with rfl | hx
      · simp
      · exact Nat.lt_succ_of_lt (h4 x hx)
    · refine List.nodup_cons.mpr ⟨?_, h5⟩
      intro hmem
      obtain ⟨x, hx, hfst⟩ := List.mem_map.mp hmem
      exact absurd hfst (Nat.ne_of_lt (h4 x hx))

/-- Acquiring an Editor handle preserves the aliasing invariant. -/
theorem accessInv_acquireEditor {s : AccessState} {i : Nat} {t : AccessState}
    (_hInv : AccessInv s) (h : acquireEditor s = some (i, t)) : AccessInv t := by
  unfold acquireEditor at h
  split at h
  · injection h with h
    injection h with hi ht
    subst hi
    subst ht
    refine ⟨?_, ?_, ?_, ?_, ?_⟩
    · simp [countEditor, countKind]
    · intro hv
      exact absurd hv (by simp [countView, countKind])
    · intro _
      simp [countNav, countKind]
    · intro x hx
      rcases List.mem_singleton.mp hx with rfl
      simp
    · simp
  · exact Option.noConfusion h

/-- Deriving a nested Navigator view from the live Editor handle preserves
the aliasing invariant. -/
theorem accessInv_deriveView {s : AccessState} {i : Nat} {t : AccessState}
    (hInv : AccessInv s) (h : deriveView s = some (i, t)) : AccessInv t := by
  obtain ⟨h1, h2, h3, h4, h5⟩ := hInv
  unfold deriveView at h
  split at h
  · rename_i he
    have hE1 : countEditor s = 1 := by
      have := (hasEditor_true_iff s).mp he
      omega
    injection h with h
    injection h with hi ht
    subst hi
    subst ht
    have cE : countEditor { live := (s.next, HKind.view) :: s.live, next := s.next + 1 } =
        countEditor s := by
      simp [countEditor, countKind, List.countP_cons]
    have cN : countNav { live := (s.next, HKind.view) :: s.live, next := s.next + 1 } =
        countNav s := by
      simp [countNav, countKind, List.countP_cons]
    refine ⟨?_, ?_, ?_, ?_, ?_⟩
    · omega
    · intro _
      omega
    · intro _
      rw [cN]
      exact h3 hE1
    · intro x hx
      rcases List.mem_cons.mp hx with rfl | hx
      · simp
      · exact Nat.lt_succ_of_lt (h4 x hx)
    · refine List.nodup_cons.mpr ⟨?_, h5⟩
      intro hmem
      obtain ⟨x, hx, hfst⟩ := List.mem_map.mp hmem
      exact absurd hfst (Nat.ne_of_lt (h4 x hx))
  · exact Option.noConfusion h

/-- Releasing a handle preserves the aliasing invariant. -/
theorem accessInv_releaseHandle {s : AccessState} {id : Nat} {t : AccessState}
    (hInv : AccessInv s) (h : releaseHandle s id = some t) : AccessInv t := by
  obtain ⟨h1, h2, h3, h4, h5⟩ := hInv
  unfold releaseHandle at h
  split at h
  · exact Option.noConfusion h
  · rename_i h₀ hfind
    have hmem : h₀ ∈ s.live := List.mem_of_find?_eq_some hfind
    have hid : h₀.1 = id := by
      have := List.find?_some hfind
      simpa using this
    have uniq : ∀ x ∈ s.live, x.1 = id → x = h₀ := by
      intro x hx hxid
      exact List.inj_on_of_nodup_map h5 hx hmem (by rw [hxid, hid])
    split at h
    · exact Option.noConfusion h
    · rename_i hguard
      injection h with ht
      subst ht
      have cEle : countEditor { live := s.live.filter (fun x => x.1 != id), next := s.next } ≤
          countEditor s := countKind_filter_le HKind.editor _ s.next s.next s.live
      have cVle : countView { live := s.live.filter (fun x => x.1 != id), next := s.next } ≤
          countView s := countKind_filter_le HKind.view _ s.next s.next s.live
      have cNle : countNav { live := s.live.filter (fun x => x.1 != id), next := s.next } ≤
          countNav s := countKind_filter_le HKind.nav _ s.next s.next s.live
      refine ⟨?_, ?_, ?_, ?_, ?_⟩
      · omega
      · intro hv
        have hvs : countView s ≠ 0 := by omega
        have hE1 : countEditor s = 1 := h2 hvs
        by_cases hk : h₀.2 = HKind.editor
        · exfalso
          apply hguard
          simp [hk, bne_iff_ne]
          exact hvs
        · have hEq : countEditor { live := s.live.filter (fun x => x.1 != id), next := s.next } =
              countEditor s :=
            countKind_filter_eq HKind.editor id s.next s.next s.live
              (fun x hx hxk hxid => hk ((uniq x hx hxid) ▸ hxk))
          omega
      · intro hE
        have hE1 : countEditor s = 1 := by omega
        have hN0 : countNav s = 0 := h3 hE1
        omega
      · intro x hx
        exact h4 x (List.mem_of_mem_filter hx)
      · exact List.Nodup.sublist ((List.filter_sublist s.live).map Prod.fst) h5


/-- The two consuming conversions have identical custody-transfer semantics. -/
theorem toInEdges_eq_toOutEdges : toInEdges = toOutEdges := rfl

/-- The consuming conversion to an Editor edge collection preserves the
aliasing invariant. -/
theorem accessInv_toOutEdges {s : AccessState} {id i : Nat} {t : AccessState}
    (hInv : AccessInv s) (h : toOutEdges s id = some (i, t)) : AccessInv t := by
  obtain ⟨h1, h2, h3, h4, h5⟩ := hInv
  unfold toOutEdges at h
  split at h
  · rename_i htrue
    simp only [Bool.and_eq_true] at htrue
    obtain ⟨hc, hv0⟩ := htrue
    have hc : (id, HKind.editor) ∈ s.live := by
      simpa using hc
    have hv0 : countView s = 0 := by
      simpa using hv0
    have hE1 : countEditor s = 1 := by
      have hpos : 0 < countEditor s := by
        simp only [countEditor, countKind, List.countP_pos_iff]
        exact ⟨(id, HKind.editor), hc, by simp⟩
      omega
    have hfil : countEditor ⟨s.live.filter (fun x => x.1 != id), s.next⟩ = 0 := by
      simp only [countEditor, countKind, List.countP_eq_zero]
      intro a ha
      have hal : a ∈ s.live := (List.mem_filter.mp ha).1
      have hane : (a.1 != id) = true := (List.mem_filter.mp ha).2
      intro hak
      have hak' : a.2 = HKind.editor := by simpa using hak
      have hne : a ≠ (id, HKind.editor) := by
        intro heq
        rw [heq] at hane
        simp at hane
      have h2le : 2 ≤ s.live.countP (fun x => x.2 == HKind.editor) :=
        two_le_countP _ hal hc hne (by simp [hak']) (by simp)
      have hcE : countEditor s = s.live.countP (fun x => x.2 == HKind.editor) := rfl
      omega
    injection h with h
    injection h with hi ht
    subst hi
    subst ht
    have cE1 : countEditor ⟨(s.next, HKind.editor) ::
        s.live.filter (fun x => x.1 != id), s.next + 1⟩ = 1 := by
      simp only [countEditor, countKind, List.countP_cons] at hfil ⊢
      simp [hfil]
    have cVle : countView ⟨(s.next, HKind.editor) ::
        s.live.filter (fun x => x.1 != id), s.next + 1⟩ ≤ countView s := by
      simp only [countView, countKind, List.countP_cons]
      have hle := countKind_filter_le HKind.view (fun x => x.1 != id) s.next s.next s.live
      simp only [countView, countKind] at hle
      simpa using hle
    have cNle : countNav ⟨(s.next, HKind.editor) ::
        s.live.filter (fun x => x.1 != id), s.next + 1⟩ ≤ countNav s := by
      simp only [countNav, countKind, List.countP_cons]
      have hle := countKind_filter_le HKind.nav (fun x => x.1 != id) s.next s.next s.live
      simp only [countNav, countKind] at hle
      simpa using hle
    refine ⟨?_, ?_, ?_, ?_, ?_⟩
    · omega
    · intro _
      exact cE1
    · intro _
      have := h3 hE1
      omega
    · intro x hx
      rcases List.mem_cons.mp hx with rfl | hx
      · simp
      · exact Nat.lt_succ_of_lt (h4 x (List.mem_of_mem_filter hx))
    · refine List.nodup_cons.mpr ⟨?_, ?_⟩
      · intro hmem
        obtain ⟨x, hx, hfst⟩ := List.mem_map.mp hmem
        exact absurd hfst (Nat.ne_of_lt (h4 x (List.mem_of_mem_filter hx)))
      · exact List.Nodup.sublist ((List.filter_sublist s.live).map Prod.fst) h5
  · exact Option.noConfusion h

/-- The consuming conversion to an Editor in-edge collection preserves the
aliasing invariant. -/
theorem accessInv_toInEdges {s : AccessState} {id i : Nat} {t : AccessState}
    (hInv : AccessInv s) (h : toInEdges s id = some (i, t)) : AccessInv t := by
  rw [toInEdges_eq_toOutEdges] at h
  exact accessInv_toOutEdges hInv h

/-- Every reachable state of the access discipline satisfies the aliasing
invariant. -/
theorem reachable_accessInv {s : AccessState} (h : Reachable s) : AccessInv s := by
  induction h with
  | init =>
    refine ⟨?_, ?_, ?_, ?_, ?_⟩ <;>
      simp [initState, countEditor, countView, countNav, countKind]
  | step _ hstep ih =>
    cases hstep with
    | acqNav h => exact accessInv_acquireNav ih h
    | acqEditor h => exact accessInv_acquireEditor ih h
    | derive h => exact accessInv_deriveView ih h
    | release h => exact accessInv_releaseHandle ih h
    | toOut h => exact accessInv_toOutEdges ih h
    | toIn h => exact accessInv_toInEdges ih h

/-- No Editor handle is live in a `navOnly` state. -/
theorem hasEditor_navOnly (n : Nat) : hasEditor (navOnly n) = false := by
  simp [hasEditor, navOnly, List.any_map, Function.comp]

/-- Arbitrarily many Navigator handles can actually be obtained: every
`navOnly` state is reachable. -/
theorem reachable_navOnly (n : Nat) : Reachable (navOnly n) := by
  induction n with
  | zero => exact Reachable.init
  | succ n ih =>
    refine Reachable.step ih (AccessStep.acqNav (i := n) ?_)
    unfold acquireNav
    rw [hasEditor_navOnly]
    simp [navOnly, List.range_succ]

/-- The `navOnly` state holds exactly `n` Navigator handles. -/
theorem countNav_navOnly (n : Nat) : countNav (navOnly n) = n := by
  have hcomp : ((fun h : Nat × HKind => h.2 == HKind.nav) ∘ fun i => (i, HKind.nav)) =
      fun _ => true := by
    funext i
    simp
  simp [countNav, countKind, navOnly, List.countP_map, hcomp]

/-- The `navOnly` state holds no Editor handle. -/
theorem countEditor_navOnly (n : Nat) : countEditor (navOnly n) = 0 := by
  have hcomp : ((fun h : Nat × HKind => h.2 == HKind.editor) ∘ fun i => (i, HKind.nav)) =
      fun _ => false := by
    funext i
    simp
  simp [countEditor, countKind, navOnly, List.countP_map, hcomp]

/-- One step of the access discipline preserves `NeverLive`: released or
consumed ids are never reissued. -/
theorem accessStep_neverLive {id : Nat} {s t : AccessState}
    (h : NeverLive id s) (hstep : AccessStep s t) : NeverLive id t := by
  obtain ⟨hdead, hlt⟩ := h
  cases hstep with
  | acqNav hop =>
    unfold acquireNav at hop
    split at hop
    · exact Option.noConfusion hop
    · injection hop with hop
      injection hop with hi ht
      subst ht
      refine ⟨?_, Nat.lt_succ_of_lt hlt⟩
      simp only [List.map_cons, List.mem_cons]
      rintro (rfl | hmem)
      · omega
      · exact hdead hmem
  | acqEditor hop =>
    unfold acquireEditor at hop
    split at hop
    · injection hop with hop
      injection hop with hi ht
      subst ht
      refine ⟨?_, Nat.lt_succ_of_lt hlt⟩
      simp only [List.map_cons, List.map_nil, List.mem_singleton]
      omega
    · exact Option.noConfusion hop
  | derive hop =>
    unfold deriveView at hop
    split at hop
    · injection hop with hop
      injection hop with hi ht
      subst ht
      refine ⟨?_, Nat.lt_succ_of_lt hlt⟩
      simp only [List.map_cons, List.mem_cons]
      rintro (rfl | hmem)
      · omega
      · exact hdead hmem
    · exact Option.noConfusion hop
  | release hop =>
    unfold releaseHandle at hop
    split at hop
    · exact Option.noConfusion hop
    · split at hop
      · exact Option.noConfusion hop
      · injection hop with ht
        subst ht
        refine ⟨?_, hlt⟩
        intro hmem
        obtain ⟨x, hx, hfst⟩ := List.mem_map.mp hmem
        exact hdead (List.mem_map.mpr ⟨x, List.mem_of_mem_filter hx, hfst⟩)
  | toOut hop =>
    unfold toOutEdges at hop
    split at hop
    · injection hop with hop
      injection hop with hi ht
      subst ht
      refine ⟨?_, Nat.lt_succ_of_lt hlt⟩
      simp only [List.map_cons, List.mem_cons]
      rintro (rfl | hmem)
      · omega
      · obtain ⟨x, hx, hfst⟩ := List.mem_map.mp hmem
        exact hdead (List.mem_map.mpr ⟨x, List.mem_of_mem_filter hx, hfst⟩)
    · exact Option.noConfusion hop
  | toIn hop =>
    rw [toInEdges_eq_toOutEdges] at hop
    unfold toOutEdges at hop
    split at hop
    · injection hop with hop
      injection hop with hi ht
      subst ht
      refine ⟨?_, Nat.lt_succ_of_lt hlt⟩
      simp only [List.map_cons, List.mem_cons]
      rintro (rfl | hmem)
      · omega
      · obtain ⟨x, hx, hfst⟩ := List.mem_map.mp hmem
        exact hdead (List.mem_map.mpr ⟨x, List.mem_of_mem_filter hx, hfst⟩)
    · exact Option.noConfusion hop

/-- `NeverLive` persists along any sequence of steps. -/
theorem neverLive_persists {id : Nat} {s u : AccessState}
    (h : NeverLive id s) (hsteps : Relation.ReflTransGen AccessStep s u) :
    NeverLive id u := by
  induction hsteps with
  | refl => exact h
  | tail _ hstep ih => exact accessStep_neverLive ih hstep

/-- After a consuming conversion from a reachable state, the consumed
Editor Vertex id is dead, below the id counter, and exclusivity lives on
in exactly one Editor-family handle. -/
theorem toOutEdges_consumes {s : AccessState} {id i : Nat} {t : AccessState}
    (hReach : Reachable s) (h : toOutEdges s id = some (i, t)) :
    countEditor t = 1 ∧ NeverLive id t := by
  obtain ⟨h1, h2, h3, h4, h5⟩ := reachable_accessInv hReach
  have hInvT : AccessInv t := accessInv_toOutEdges (reachable_accessInv hReach) h
  unfold toOutEdges at h
  split at h
  · rename_i htrue
    simp only [Bool.and_eq_true] at htrue
    obtain ⟨hc, hv0⟩ := htrue
    have hc : (id, HKind.editor) ∈ s.live := by
      simpa using hc
    have hlt : id < s.next := h4 (id, HKind.editor) hc
    injection h with h
    injection h with hi ht
    subst ht
    constructor
    · -- editor count of the post-state is 1: one fresh editor plus an
      -- editor-free remainder (every other editor would contradict the
      -- at-most-one invariant of the pre-state)
      have hfil : countEditor ⟨s.live.filter (fun x => x.1 != id), s.next⟩ = 0 := by
        simp only [countEditor, countKind, List.countP_eq_zero]
        intro a ha
        have hal : a ∈ s.live := (List.mem_filter.mp ha).1
        have hane : (a.1 != id) = true := (List.mem_filter.mp ha).2
        intro hak
        have hak' : a.2 = HKind.editor := by simpa using hak
        have hne : a ≠ (id, HKind.editor) := by
          intro heq
          rw [heq] at hane
          simp at hane
        have h2le : 2 ≤ s.live.countP (fun x => x.2 == HKind.editor) :=
          two_le_countP _ hal hc hne (by simp [hak']) (by simp)
        have hcE : countEditor s = s.live.countP (fun x => x.2 == HKind.editor) := rfl
        omega
      simp only [countEditor, countKind, List.countP_cons] at hfil ⊢
      simp [hfil]
    · refine ⟨?_, Nat.lt_succ_of_lt hlt⟩
      simp only [List.map_cons, List.mem_cons]
      rintro (rfl | hmem)
      · omega
      · obtain ⟨x, hx, hfst⟩ := List.mem_map.mp hmem
        have := (List.mem_filter.mp hx).2
        rw [hfst] at this
        simp at this
  · exact Option.noConfusion h

/-- A dead id supports no operation: release and both consuming
conversions fail on it, in this and every later state. -/
theorem neverLive_no_ops {id : Nat} {u : AccessState} (h : NeverLive id u) :
    releaseHandle u id = none ∧ toOutEdges u id = none ∧ toInEdges u id = none := by
  obtain ⟨hdead, _⟩ := h
  have hfind : u.live.find? (fun x => x.1 == id) = none := by
    rw [List.find?_eq_none]
    intro x hx
    simp only [beq_iff_eq]
    intro hfst
    exact hdead (List.mem_map.mpr ⟨x, hx, hfst⟩)
  have hcont : u.live.contains (id, HKind.editor) = false := by
    by_contra hc
    simp only [Bool.not_eq_false] at hc
    have hmem : (id, HKind.editor) ∈ u.live := by simpa using hc
    exact hdead (List.mem_map.mpr ⟨(id, HKind.editor), hmem, rfl⟩)
  refine ⟨?_, ?_, ?_⟩
  · unfold releaseHandle
    rw [hfind]
  · unfold toOutEdges
    rw [hcont]
    simp
  · rw [toInEdges_eq_toOutEdges]
    unfold toOutEdges
    rw [hcont]
    simp

/-- C1: contrary to the claim (and to the method's own documentation and
the spec's intended nested-view contract), the Editor `Vertex` trait's
`out_edges` is declared with a `&self` receiver but the unit return type
(`fn out_edges(&self);`, src/mut_types.rs line 92): it produces no
Navigator `OutEdgeCollection` view at all. -/
theorem mut_vertex_out_edges_returns_unit :
    mutVertexDecl.findMethod "out_edges" =
      some { name := "out_edges", recv := Recv.byRef, ret := Ty.unit,
             hasDefaultBody := false } ∧
    (Ty.unit == Ty.navOutEdgeCollection) = false := by
  exact ⟨rfl, by decide⟩

/-- C4: the Navigator `Vertex::data` returns a reference with the graph
borrow's lifetime `'a`, which outlives the handle itself, while the Editor
`Vertex::data` returns a reference with the receiver borrow's elided
lifetime, tied to the handle's own access window. -/
theorem nav_data_graph_lifetime :
    navVertexDecl.findMethod "data" =
      some { name := "data", recv := Recv.byRef,
             ret := Ty.ref Life.graph Ty.vertexData, hasDefaultBody := false } ∧
    mutVertexDecl.findMethod "data" =
      some { name := "data", recv := Recv.byRef,
             ret := Ty.ref Life.handle Ty.vertexData, hasDefaultBody := false } ∧
    outlivesHandle Life.graph = true ∧
    outlivesHandle Life.handle = false := by
  exact ⟨rfl, rfl, rfl, rfl⟩

/-- C10: each family trait constrains every member's `Types` back to the
family itself (`Types = Self` both ways), so projecting a member out of a
`NavTypes` or `MutTypes` family and asking it for its family round-trips;
and `MutTypes` has `NavTypes` as supertrait, which in turn extends
`GraphTypes` with its `VertexData`/`EdgeData` payload types, so every
`MutTypes` family is also a complete `NavTypes` family over the same
payload types. -/
theorem type_family_roundtrip :
    (navTypesDecl.findAssoc "NavVertex" =
       some { name := "NavVertex", bounds := ["nav_types::Vertex"],
              constraints := [Constraint.eqSelf "Types"] } ∧
     navTypesDecl.findAssoc "NavEdge" =
       some { name := "NavEdge", bounds := ["nav_types::Edge"],
              constraints := [Constraint.eqSelf "Types"] } ∧
     navTypesDecl.findAssoc "NavInEdgeCollection" =
       some { name := "NavInEdgeCollection", bounds := ["nav_types::InEdgeCollection"],
              constraints := [Constraint.eqSelf "Types"] } ∧
     navTypesDecl.findAssoc "NavOutEdgeCollection" =
       some { name := "NavOutEdgeCollection", bounds := ["nav_types::OutEdgeCollection"],
              constraints := [Constraint.eqSelf "Types"] }) ∧
    (navVertexDecl.findAssoc "Types" =
       some { name := "Types", bounds := ["NavTypes"],
              constraints := [Constraint.eqSelf "NavVertex"] } ∧
     navEdgeDecl.findAssoc "Types" =
       some { name := "Types", bounds := ["NavTypes"],
              constraints := [Constraint.eqSelf "NavEdge"] } ∧
     navInEdgeCollectionDecl.findAssoc "Types" =
       some { name := "Types", bounds := ["NavTypes"],
              constraints := [Constraint.eqSelf "NavInEdgeCollection"] } ∧
     navOutEdgeCollectionDecl.findAssoc "Types" =
       some { name := "Types", bounds := ["NavTypes"],
              constraints := [Constraint.eqSelf "NavOutEdgeCollection"] }) ∧
    (mutTypesDecl.findAssoc "MutVertex" =
       some { name := "MutVertex", bounds := ["mut_types::Vertex"],
              constraints := [Constraint.eqSelf "Types"] } ∧
     mutTypesDecl.findAssoc "MutEdge" =
       some { name := "MutEdge", bounds := ["mut_types::Edge"],
              constraints := [Constraint.eqSelf "Types"] } ∧
     mutTypesDecl.findAssoc "MutInEdgeCollection" =
       some { name := "MutInEdgeCollection", bounds := ["mut_types::InEdgeCollection"],
              constraints := [Constraint.eqSelf "Types"] } ∧
     mutTypesDecl.findAssoc "MutOutEdgeCollection" =
       some { name := "MutOutEdgeCollection", bounds := ["mut_types::OutEdgeCollection"],
              constraints := [Constraint.eqSelf "Types"] }) ∧
    (mutVertexDecl.findAssoc "Types" =
       some { name := "Types", bounds := ["MutTypes"],
              constraints := [Constraint.eqSelf "MutVertex"] } ∧
     mutEdgeDecl.findAssoc "Types" =
       some { name := "Types", bounds := ["MutTypes"],
              constraints := [Constraint.eqSelf "MutEdge"] } ∧
     mutInEdgeCollectionDecl.findAssoc "Types" =
       some { name := "Types", bounds := ["MutTypes"],
              constraints := [Constraint.eqSelf "MutInEdgeCollection"] } ∧
     mutOutEdgeCollectionDecl.findAssoc "Types" =
       some { name := "Types", bounds := ["MutTypes"],
              constraints := [Constraint.eqSelf "MutOutEdgeCollection"] }) ∧
    mutTypesDecl.supertraits = ["NavTypes"] ∧
    navTypesDecl.supertraits = ["GraphTypes"] ∧
    graphTypesDecl.findAssoc "VertexData" =
      some { name := "VertexData", bounds := [], constraints := [] } ∧
    graphTypesDecl.findAssoc "EdgeData" =
      some { name := "EdgeData", bounds := [], constraints := [] } := by
  exact ⟨⟨rfl, rfl, rfl, rfl⟩, ⟨rfl, rfl, rfl, rfl⟩, ⟨rfl, rfl, rfl, rfl⟩,
    ⟨rfl, rfl, rfl, rfl⟩, rfl, rfl, rfl, rfl⟩

/-- C5 counterexample: contrary to the claim, the Editor variants of the
edge-collection traits declare no `len`, no `is_empty` and no `iter`
method at all (src/mut_types.rs lines 98-106). -/
theorem mut_collections_lack_len :
    mutInEdgeCollectionDecl.findMethod "len" = none ∧
    mutOutEdgeCollectionDecl.findMethod "len" = none ∧
    mutInEdgeCollectionDecl.findMethod "is_empty" = none ∧
    mutOutEdgeCollectionDecl.findMethod "is_empty" = none ∧
    mutInEdgeCollectionDecl.findMethod "iter" = none ∧
    mutOutEdgeCollectionDecl.findMethod "iter" = none ∧
    mutInEdgeCollectionDecl.methods = [] ∧
    mutOutEdgeCollectionDecl.methods = [] := by
  exact ⟨rfl, rfl, rfl, rfl, rfl, rfl, rfl, rfl⟩

/-- C5 (amended): only the Navigator edge-collection traits offer `len`,
the derived `is_empty` and an `iter` capability whose sequence yields
Navigator Edge handles (and in the adjacency-list model `iter` yields
exactly `len` edges); the Editor variants only nominate an `Iter`
associated type bounded by `BoundedIterator` with no item constraint and
declare no methods; the `source`/`target` back-reference is Navigator
only. -/
theorem collection_interface_split :
    (navInEdgeCollectionDecl.findMethod "len" =
       some { name := "len", recv := Recv.byRef, ret := Ty.usize,
              hasDefaultBody := false } ∧
     navOutEdgeCollectionDecl.findMethod "len" =
       some { name := "len", recv := Recv.byRef, ret := Ty.usize,
              hasDefaultBody := false } ∧
     navInEdgeCollectionDecl.findMethod "is_empty" =
       some { name := "is_empty", recv := Recv.byRef, ret := Ty.bool,
              hasDefaultBody := true } ∧
     navOutEdgeCollectionDecl.findMethod "is_empty" =
       some { name := "is_empty", recv := Recv.byRef, ret := Ty.bool,
              hasDefaultBody := true } ∧
     navInEdgeCollectionDecl.findMethod "iter" =
       some { name := "iter", recv := Recv.byRef, ret := Ty.selfIter,
              hasDefaultBody := false } ∧
     navOutEdgeCollectionDecl.findMethod "iter" =
       some { name := "iter", recv := Recv.byRef, ret := Ty.selfIter,
              hasDefaultBody := false } ∧
     navInEdgeCollectionDecl.findMethod "target" =
       some { name := "target", recv := Recv.byRef, ret := Ty.navVertex,
              hasDefaultBody := false } ∧
     navOutEdgeCollectionDecl.findMethod "source" =
       some { name := "source", recv := Recv.byRef, ret := Ty.navVertex,
              hasDefaultBody := false }) ∧
    (iterItemConstraint navInEdgeCollectionDecl = some Ty.navEdge ∧
     iterItemConstraint navOutEdgeCollectionDecl = some Ty.navEdge) ∧
    (mutInEdgeCollectionDecl.methods = [] ∧
     mutOutEdgeCollectionDecl.methods = [] ∧
     mutInEdgeCollectionDecl.findAssoc "Iter" =
       some { name := "Iter", bounds := ["BoundedIterator"], constraints := [] } ∧
     mutOutEdgeCollectionDecl.findAssoc "Iter" =
       some { name := "Iter", bounds := ["BoundedIterator"], constraints := [] } ∧
     mutInEdgeCollectionDecl.findMethod "target" = none ∧
     mutOutEdgeCollectionDecl.findMethod "source" = none) ∧
    (∀ (V E : Type) (c : MOutEdges V E), c.iterSeq.length = c.len) ∧
    (∀ (V E : Type) (c : MInEdges V E), c.iterSeq.length = c.len) := by
  refine ⟨⟨rfl, rfl, rfl, rfl, rfl, rfl, rfl, rfl⟩, ⟨rfl, rfl⟩,
    ⟨rfl, rfl, rfl, rfl, rfl, rfl⟩, ?_, ?_⟩
  · intro V E c
    simp [MOutEdges.iterSeq, MOutEdges.len]
  · intro V E c
    simp [MInEdges.iterSeq, MInEdges.len]

/-- C6 counterexample: contrary to the claim, the Editor edge-collection
traits place no `Item` constraint on their `Iter` associated type
(src/mut_types.rs lines 98-106), so an Editor collection's iterator is
not required to yield Editor Edge values. -/
theorem mut_iter_item_unconstrained :
    iterItemConstraint mutInEdgeCollectionDecl = none ∧
    iterItemConstraint mutOutEdgeCollectionDecl = none ∧
    (iterItemConstraint mutInEdgeCollectionDecl == some Ty.mutEdge) = false ∧
    (iterItemConstraint mutOutEdgeCollectionDecl == some Ty.mutEdge) = false := by
  exact ⟨rfl, rfl, by decide, by decide⟩

/-- C6 (amended): the Navigator collections' iterators are constrained to
yield Navigator Edge handles (`Item = NavEdge`), while the Editor
collections' `Iter` type carries no item constraint at all. -/
theorem iter_item_modes :
    iterItemConstraint navInEdgeCollectionDecl = some Ty.navEdge ∧
    iterItemConstraint navOutEdgeCollectionDecl = some Ty.navEdge ∧
    iterItemConstraint mutInEdgeCollectionDecl = none ∧
    iterItemConstraint mutOutEdgeCollectionDecl = none := by
  exact ⟨rfl, rfl, rfl, rfl⟩

/-- C7 counterexample: contrary to the claim, the Navigator `Vertex` trait
is bounded only by `Sized` (src/nav_types.rs line 17) — neither `Copy` nor
`Clone` is among its supertraits, so free copyability is not guaranteed by
the declared contract. -/
theorem nav_vertex_not_copy_bound :
    navVertexDecl.supertraits = ["Sized"] ∧
    navVertexDecl.supertraits.contains "Copy" = false ∧
    navVertexDecl.supertraits.contains "Clone" = false := by
  refine ⟨rfl, ?_, ?_⟩ <;> decide

/-- C7 (amended): Navigator handles are backed by a shared borrow, so
arbitrarily many of them can coexist over the same graph (every `navOnly`
state is reachable); but the four Navigator traits bound their
implementors only by `Sized`, not `Copy` or `Clone`. -/
theorem nav_handles_coexist :
    (navVertexDecl.supertraits = ["Sized"] ∧
     navEdgeDecl.supertraits = ["Sized"] ∧
     navInEdgeCollectionDecl.supertraits = ["Sized"] ∧
     navOutEdgeCollectionDecl.supertraits = ["Sized"]) ∧
    (∀ n : Nat, ∃ s, Reachable s ∧ countNav s = n) := by
  refine ⟨⟨rfl, rfl, rfl, rfl⟩, fun n => ⟨navOnly n, reachable_navOnly n, countNav_navOnly n⟩⟩

/-- C8: in the adjacency-list model of the Navigator contracts, whose
`is_empty` uses the trait's default body `self.len() == 0`
(src/nav_types.rs lines 43 and 56), `is_empty` holds exactly when `len`
is zero, for both collection directions. -/
theorem nav_is_empty_iff_len_zero :
    (∀ (V E : Type) (c : MOutEdges V E), c.is_empty = true ↔ c.len = 0) ∧
    (∀ (V E : Type) (c : MInEdges V E), c.is_empty = true ↔ c.len = 0) ∧
    navInEdgeCollectionDecl.findMethod "is_empty" =
      some { name := "is_empty", recv := Recv.byRef, ret := Ty.bool,
             hasDefaultBody := true } ∧
    navOutEdgeCollectionDecl.findMethod "is_empty" =
      some { name := "is_empty", recv := Recv.byRef, ret := Ty.bool,
             hasDefaultBody := true } := by
  refine ⟨?_, ?_, rfl, rfl⟩
  · intro V E c
    simp [MOutEdges.is_empty]
  · intro V E c
    simp [MInEdges.is_empty]

/-- C9: in the adjacency-list model of the Navigator contracts, every Edge
handle produced by iterating a vertex's out-edge collection has that very
vertex as its `source`. -/
theorem nav_out_edge_source_roundtrip {V E : Type} (v : MVertex V E) (e : MEdge V E)
    (h : e ∈ v.out_edges.iterSeq) : e.source = v := by
  simp only [MVertex.out_edges, MOutEdges.iterSeq, MOutEdges.edgeList] at h
  obtain ⟨t, ht, rfl⟩ := List.mem_map.mp h
  have hfst : t.1 = v.id := by
    have := (List.mem_filter.mp ht).2
    simpa using this
  simp [MEdge.source, hfst]

/-- C9 witness: in the spec's test scenario graph, the edge A -> B is
produced by iterating vertex A's out-edge collection and its source is A
again. -/
theorem nav_out_edge_source_roundtrip_witness :
    ({ g := witnessGraph, src := 0, tgt := 1, payload := 5 } : MEdge Nat Nat) ∈
      ({ g := witnessGraph, id := 0 } : MVertex Nat Nat).out_edges.iterSeq ∧
    ({ g := witnessGraph, src := 0, tgt := 1, payload := 5 } : MEdge Nat Nat).source =
      { g := witnessGraph, id := 0 } :=
  ⟨by decide, nav_out_edge_source_roundtrip
    { g := witnessGraph, id := 0 } { g := witnessGraph, src := 0, tgt := 1, payload := 5 }
    (by decide)⟩

/-- C2: in every reachable state of the access discipline at most one
Editor-family handle is live; an independent Navigator handle never
coexists with a live Editor handle (the only co-resident read handles are
the views derived from the Editor handle, which exist only while an
Editor handle is live and block its release); and any number of Navigator
handles can coexist when no Editor handle is live. -/
theorem editor_exclusivity_invariant :
    (∀ s, Reachable s →
      countEditor s ≤ 1 ∧
      (countEditor s = 1 → countNav s = 0) ∧
      (countView s ≠ 0 → countEditor s = 1)) ∧
    (∀ n : Nat, ∃ s, Reachable s ∧ countNav s = n ∧ countEditor s = 0) ∧
    (∀ (s : AccessState) (id : Nat) (h : Nat × HKind),
      s.live.find? (fun x => x.1 == id) = some h → h.2 = HKind.editor →
      countView s ≠ 0 → releaseHandle s id = none) := by
  refine ⟨?_, ?_, ?_⟩
  · intro s hs
    obtain ⟨h1, h2, h3, _, _⟩ := reachable_accessInv hs
    exact ⟨h1, h3, h2⟩
  · intro n
    exact ⟨navOnly n, reachable_navOnly n, countNav_navOnly n, countEditor_navOnly n⟩
  · intro s id h hfind hk hv
    unfold releaseHandle
    rw [hfind]
    simp [hk, hv]

/-- C2 witness: the state with one Editor handle and one derived view,
reached by acquiring the Editor handle and deriving a view, satisfies the
exclusivity invariant. -/
theorem editor_exclusivity_invariant_witness :
    Reachable { live := [(1, HKind.view), (0, HKind.editor)], next := 2 } ∧
    (countEditor { live := [(1, HKind.view), (0, HKind.editor)], next := 2 } ≤ 1 ∧
     (countEditor { live := [(1, HKind.view), (0, HKind.editor)], next := 2 } = 1 →
       countNav { live := [(1, HKind.view), (0, HKind.editor)], next := 2 } = 0) ∧
     (countView { live := [(1, HKind.view), (0, HKind.editor)], next := 2 } ≠ 0 →
       countEditor { live := [(1, HKind.view), (0, HKind.editor)], next := 2 } = 1)) := by
  have h1 : Reachable { live := [(0, HKind.editor)], next := 1 } :=
    Reachable.step Reachable.init (AccessStep.acqEditor (i := 0) (by decide))
  have hr : Reachable { live := [(1, HKind.view), (0, HKind.editor)], next := 2 } :=
    Reachable.step h1 (AccessStep.derive (i := 1) (by decide))
  exact ⟨hr, editor_exclusivity_invariant.1 _ hr⟩

/-- C3: the consuming conversions `to_out_edges` and `to_in_edges` take
the Editor Vertex receiver by value and return the Editor edge
collection; in the access-discipline semantics the consumed handle id is
dead in the post-state while exclusivity lives on in exactly one Editor
handle, and in the post-state and every state reachable from it no
operation accepts the consumed id — use after the move is unrepresentable
rather than a run-time `InvalidHandle`. -/
theorem to_edge_collections_consume :
    mutVertexDecl.findMethod "to_out_edges" =
      some { name := "to_out_edges", recv := Recv.byValue,
             ret := Ty.mutOutEdgeCollection, hasDefaultBody := false } ∧
    mutVertexDecl.findMethod "to_in_edges" =
      some { name := "to_in_edges", recv := Recv.byValue,
             ret := Ty.mutInEdgeCollection, hasDefaultBody := false } ∧
    (∀ (s : AccessState) (id i : Nat) (t : AccessState),
      Reachable s → toOutEdges s id = some (i, t) →
      countEditor t = 1 ∧ NeverLive id t ∧
      (∀ u, Relation.ReflTransGen AccessStep t u →
        releaseHandle u id = none ∧ toOutEdges u id = none ∧ toInEdges u id = none)) ∧
    (∀ (s : AccessState) (id i : Nat) (t : AccessState),
      Reachable s → toInEdges s id = some (i, t) →
      countEditor t = 1 ∧ NeverLive id t ∧
      (∀ u, Relation.ReflTransGen AccessStep t u →
        releaseHandle u id = none ∧ toOutEdges u id = none ∧ toInEdges u id = none)) := by
  refine ⟨rfl, rfl, ?_, ?_⟩
  · intro s id i t hs h
    obtain ⟨hE, hNL⟩ := toOutEdges_consumes hs h
    exact ⟨hE, hNL, fun u hu => neverLive_no_ops (neverLive_persists hNL hu)⟩
  · intro s id i t hs h
    rw [toInEdges_eq_toOutEdges] at h
    obtain ⟨hE, hNL⟩ := toOutEdges_consumes hs h
    exact ⟨hE, hNL, fun u hu => neverLive_no_ops (neverLive_persists hNL hu)⟩

/-- C3 witness: consuming the sole Editor handle of a reachable state
kills its id for good and hands exclusivity to the fresh collection
handle. -/
theorem to_edge_collections_consume_witness :
    Reachable { live := [(0, HKind.editor)], next := 1 } ∧
    toOutEdges { live := [(0, HKind.editor)], next := 1 } 0 =
      some (1, { live := [(1, HKind.editor)], next := 2 }) ∧
    (countEditor { live := [(1, HKind.editor)], next := 2 } = 1 ∧
     NeverLive 0 { live := [(1, HKind.editor)], next := 2 } ∧
     (∀ u, Relation.ReflTransGen AccessStep { live := [(1, HKind.editor)], next := 2 } u →
       releaseHandle u 0 = none ∧ toOutEdges u 0 = none ∧ toInEdges u 0 = none)) := by
  have hr : Reachable { live := [(0, HKind.editor)], next := 1 } :=
    Reachable.step Reachable.init (AccessStep.acqEditor (i := 0) (by decide))
  have heq : toOutEdges { live := [(0, HKind.editor)], next := 1 } 0 =
      some (1, { live := [(1, HKind.editor)], next := 2 }) := by decide
  exact ⟨hr, heq, to_edge_collections_consume.2.2.1 _ 0 1 _ hr heq⟩
